import Mathlib

/-!
Verification development for the BAS asynchronous TCP server framework.

The shallow embedding below translates the code of `src/bas/server.hpp`
(the `bas::server` template) and
`src/trunk/examples/proxy/server/server_work.hpp` (the proxy
`server_work` / `client_work` classes) into Lean.  Framework classes that
the repository only uses (`io_service_pool`, `service_handler`,
`service_handler_pool`, `client`, `event`) are modelled from the spec and
carry a doc comment saying so.
-/

namespace bas

/-- Modelled from the spec: `bas::event`, the typed message two paired
work objects exchange; the spec's event vocabulary lists the five states
`parent_write`, `parent_close`, `child_open`, `child_write`,
`child_close`, with an optional byte-count payload. -/
inductive EventState where
  | parent_write
  | parent_close
  | child_open
  | child_write
  | child_close
deriving DecidableEq, Repr

/-- Modelled from the spec: an event value is a state plus a numeric
payload (`value_`, a byte count; 0 when absent). -/
structure Event where
  state : EventState
  value : Nat
deriving DecidableEq, Repr

/-- Modelled from the spec: `bas::io_service_pool` (missing from src/).
"A fixed-size ordered sequence of loops with a monotonically advancing
cursor for round-robin selection."  Only the round-robin selector state
is needed here: the pool size and the cursor. -/
structure io_service_pool where
  size : Nat
  cursor : Nat
deriving DecidableEq, Repr

/-- Modelled from the spec: construct(N) — a pool of N loops, cursor at
the first loop. -/
def io_service_pool.mk0 (n : Nat) : io_service_pool :=
  { size := n, cursor := 0 }

/-- Modelled from the spec: `get_io_service()` "returns the next loop in
round-robin order... the cursor increments atomically with wrap".  The
returned loop is identified by its index in the pool. -/
def io_service_pool.get_io_service (p : io_service_pool) :
    Nat × io_service_pool :=
  (p.cursor % p.size, { p with cursor := p.cursor + 1 })

/-- Modelled from the spec: the elastic work pool (missing from src/):
initial size `w0`, high-watermark `wmax`, per-thread target load `L`,
round-robin cursor. -/
structure work_service_pool where
  size : Nat
  high_watermark : Nat
  thread_load : Nat
  cursor : Nat
deriving DecidableEq, Repr

/-- Modelled from the spec: construct(w0, wmax, L). -/
def work_service_pool.mk0 (w0 wmax load : Nat) : work_service_pool :=
  { size := w0, high_watermark := wmax, thread_load := load, cursor := 0 }

/-- Modelled from the spec: `get_io_service(load_hint h)`: compute
`required = clamp(ceil(h / L), 1, wmax)`; if `required > current_size`,
grow to `required`; return the loop at `cursor % current_size` and
advance the cursor. -/
def work_service_pool.get_io_service (h : Nat) (p : work_service_pool) :
    Nat × work_service_pool :=
  let required := min (max ((h + p.thread_load - 1) / p.thread_load) 1)
      p.high_watermark
  let newSize := max p.size required
  (p.cursor % newSize,
   { p with size := newSize, cursor := p.cursor + 1 })

/-- A checked-out service handler as the server sees it: which handler
slot it is, and the I/O loop and work loop it was bound to at checkout. -/
structure HandlerRef where
  hid : Nat
  ioLoop : Nat
  workLoop : Nat
deriving DecidableEq, Repr

/-- Modelled from the spec: `bas::service_handler_pool` (missing from
src/).  "hands out handlers on demand, recycles them on close; reports
instantaneous in-use count."  Only the atomic in-use counter and a
fresh-slot counter are needed for the server's claims. -/
structure service_handler_pool where
  in_use : Nat
  next_slot : Nat
deriving DecidableEq, Repr

/-- Modelled from the spec: `get_load()` returns the current in-use
count. -/
def service_handler_pool.get_load (p : service_handler_pool) : Nat :=
  p.in_use

/-- Modelled from the spec: `get(io_loop, work_loop) → handler` returns a
handler bound to the given loops and increments the atomic in-use
counter. -/
def service_handler_pool.get_service_handler (ioL workL : Nat)
    (p : service_handler_pool) : HandlerRef × service_handler_pool :=
  ({ hid := p.next_slot, ioLoop := ioL, workLoop := workL },
   { in_use := p.in_use + 1, next_slot := p.next_slot + 1 })

/-- Observable actions the embedded server performs, in program order. -/
inductive SrvAction where
  | openAcceptor (i : Nat)
  | setReuseAddress (i : Nat)
  | bindAcceptor (i : Nat)
  | listenAcceptor (i : Nat)
  | armAccept (i : Nat) (h : HandlerRef)
  | startHandler (h : HandlerRef)
  | closeHandler (h : HandlerRef) (e : Nat)
  | startWorkPool
  | startIoPool
deriving DecidableEq, Repr

/-- The state of `bas::server` (src/bas/server.hpp): the three pools, the
acceptors (each recorded with the acceptor-pool loop it was created on),
and the `started_` flag.  The single endpoint is left abstract. -/
structure ServerState where
  handlerPool : service_handler_pool
  acceptorPool : io_service_pool
  ioPool : io_service_pool
  workPool : work_service_pool
  acceptorLoops : List Nat
  started : Bool
deriving DecidableEq, Repr

/-- The constructor's acceptor-creation loop (src/bas/server.hpp lines
58-63): `io_pool_size` times, create an acceptor on
`acceptor_service_pool_.get_io_service()`. -/
def mkAcceptors : Nat → io_service_pool → List Nat × io_service_pool
  | 0, p => ([], p)
  | Nat.succ n, p =>
      let (l, p1) := p.get_io_service
      let (rest, p2) := mkAcceptors n p1
      (l :: rest, p2)

/-- The `server` constructor (src/bas/server.hpp lines 41-67): builds the
acceptor pool, I/O pool and work pool, creates `io_pool_size` acceptors
on the acceptor pool's round-robin loops, and starts not-started. -/
def server.mk0 (io_pool_size work_pool_init_size work_pool_high_watermark
    work_pool_thread_load : Nat) : ServerState :=
  let ap := io_service_pool.mk0 io_pool_size
  let (loops, ap') := mkAcceptors io_pool_size ap
  { handlerPool := { in_use := 0, next_slot := 0 }
    acceptorPool := ap'
    ioPool := io_service_pool.mk0 io_pool_size
    workPool := work_service_pool.mk0 work_pool_init_size
        work_pool_high_watermark work_pool_thread_load
    acceptorLoops := loops
    started := false }

/-- `server::accept_one` (src/bas/server.hpp lines 170-183): check a
handler out of the pool bound to `io_service_pool_.get_io_service()` and
`work_service_pool_.get_io_service(service_handler_pool_->get_load())`,
then arm an asynchronous accept on that handler's socket. -/
def server.accept_one (a : Nat) (s : ServerState) :
    ServerState × List SrvAction :=
  let (ioL, ioP') := s.ioPool.get_io_service
  let (workL, workP') :=
    s.workPool.get_io_service (s.handlerPool.get_load)
  let (handler, hp') := s.handlerPool.get_service_handler ioL workL
  ({ s with ioPool := ioP', workPool := workP', handlerPool := hp' },
   [SrvAction.armAccept a handler])

/-- `server::handle_accept` (src/bas/server.hpp lines 186-200): on
success start the handler and accept again on the same acceptor; on
error close the handler with the error. -/
def server.handle_accept (e : Option Nat) (handler : HandlerRef)
    (a : Nat) (s : ServerState) : ServerState × List SrvAction :=
  match e with
  | none =>
      let (s', acts) := server.accept_one a s
      (s', SrvAction.startHandler handler :: acts)
  | some err => (s, [SrvAction.closeHandler handler err])

/-- The per-acceptor body of the `run` open loop (src/bas/server.hpp
lines 100-110): open with the reuse-address option, bind, listen, then
accept one connection. -/
def server.openOne (i : Nat) (s : ServerState) :
    ServerState × List SrvAction :=
  let (s', acts) := server.accept_one i s
  (s', SrvAction.openAcceptor i :: SrvAction.setReuseAddress i ::
    SrvAction.bindAcceptor i :: SrvAction.listenAcceptor i :: acts)

/-- The `run` open loop over the acceptor list, threading the server
state; `i` is the index of the first acceptor in `accs`. -/
def server.openLoop (i : Nat) (accs : List Nat) (s : ServerState) :
    ServerState × List SrvAction :=
  match accs with
  | [] => (s, [])
  | _ :: rest =>
      let (s1, acts1) := server.openOne i s
      let (s2, acts2) := server.openLoop (i + 1) rest s1
      (s2, acts1 ++ acts2)

/-- The start phase of `server::run` (src/bas/server.hpp lines 99-117):
open/bind/listen/accept on every acceptor, then start the work pool,
then start the I/O pool, then set `started_`. -/
def server.runStartPhase (s : ServerState) : ServerState × List SrvAction :=
  let (s1, acts) := server.openLoop 0 s.acceptorLoops s
  ({ s1 with started := true },
   acts ++ [SrvAction.startWorkPool, SrvAction.startIoPool])

/-- Pending-work state of the I/O pool and work pool, used by the
shutdown drain.  Modelled from the spec: `is_free`/idle means no queued
or executing task. -/
structure PoolsPending where
  ioPending : Nat
  workPending : Nat
deriving DecidableEq, Repr

/-- Modelled from the spec: both pools report idle. -/
def poolsFree (p : PoolsPending) : Bool :=
  p.ioPending = 0 && p.workPending = 0

/-- The graceful-shutdown loop of `server::run` (src/bas/server.hpp lines
136-142): while either pool is not free, restart both pools and stop
them again.  `cycle` is the (arbitrary) effect of one
start-start-stop-stop round on the pending work; `fuel` bounds the
number of rounds, `none` meaning the loop has not yet terminated. -/
def server.drainLoop (cycle : PoolsPending → PoolsPending) :
    Nat → PoolsPending → Option PoolsPending
  | 0, p => if poolsFree p then some p else none
  | Nat.succ n, p =>
      if poolsFree p then some p
      else server.drainLoop cycle n (cycle p)

/-- `server::run(force_stop)` (src/bas/server.hpp lines 94-146).  If
already started it returns at once with no actions.  Otherwise it runs
the start phase, blocks in the acceptor pool's `run` (whose net effect
on pending pool work is the abstract `afterAccept`), then in forceful
mode force-stops both pools and in graceful mode stops both pools
(`stop0`) and drains with the restart-and-stop loop; finally clears
`started_`. -/
def server.run (force : Bool) (afterAccept : PoolsPending)
    (stop0 cycle : PoolsPending → PoolsPending) (fuel : Nat)
    (s : ServerState) : Option (ServerState × List SrvAction × PoolsPending) :=
  if s.started then some (s, [], afterAccept)
  else
    let (s1, acts) := server.runStartPhase s
    if force then
      some ({ s1 with started := false }, acts,
        { ioPending := 0, workPending := 0 })
    else
      match server.drainLoop cycle fuel (stop0 afterAccept) with
      | none => none
      | some p => some ({ s1 with started := false }, acts, p)

/-- Actions `server::stop` performs. -/
inductive StopAction where
  | dispatchCloseAcceptor (i : Nat)
  | stopAcceptorPool
deriving DecidableEq, Repr

/-- `server::stop` (src/bas/server.hpp lines 149-164): if not started,
return at once; otherwise dispatch a close of every acceptor on its own
loop and stop the acceptor pool. -/
def server.stop (s : ServerState) : ServerState × List StopAction :=
  if s.started then
    (s, ((List.range s.acceptorLoops.length).map
          StopAction.dispatchCloseAcceptor) ++ [StopAction.stopAcceptorPool])
  else (s, [])

end bas

namespace proxy

/-- Actions a work-object callback performs on its handler or peers, in
program order within the callback body. -/
inductive WAction where
  | connectChild
  | postParentEvent (e : bas.Event)
  | postChildEvent (e : bas.Event)
  | asyncReadSome
  | asyncWrite (data : List Nat)
  | clearChildPtr
  | clearParentPtr
  | closeHandler
  | logLine
deriving DecidableEq, Repr

/-- The std::cout branch of the two `on_close` switches
(server_work.hpp lines 75-97 and 200-222): error codes 0, eof and the
"other error" group each print a line; the connection-breaked group
(aborted / reset / refused) prints nothing.  Error codes are embedded as
naturals: 0 = success, 1 = eof, 2 = aborted, 3 = reset, 4 = refused,
5 = timed out, 6 = no buffer space, anything else = other. -/
def closeLog (e : Nat) : List WAction :=
  if e = 0 || e = 1 then [WAction.logLine]
  else if e = 2 || e = 3 || e = 4 then []
  else [WAction.logLine]

/-- `proxy::server_work::on_open` (server_work.hpp lines 52-55):
`client_.connect(handler)`. -/
def server_work.on_open : List WAction :=
  [WAction.connectChild]

/-- `proxy::server_work::on_read` (server_work.hpp lines 57-60): post
`parent_write(bytes_transferred)` to the child handler via
`child_handler_->post_parent`. -/
def server_work.on_read (bytes : Nat) : List WAction :=
  [WAction.postParentEvent ⟨bas.EventState.parent_write, bytes⟩]

/-- `proxy::server_work::on_write` (server_work.hpp lines 62-65): arm the
next read. -/
def server_work.on_write : List WAction :=
  [WAction.asyncReadSome]

/-- `proxy::server_work::on_close` (server_work.hpp lines 67-98): if the
child pointer is set, post `parent_close` to the child and then null the
pointer; then the logging switch on the error. -/
def server_work.on_close (childSet : Bool) (e : Nat) : List WAction :=
  (if childSet then
    [WAction.postParentEvent ⟨bas.EventState.parent_close, 0⟩,
     WAction.clearChildPtr]
   else []) ++ closeLog e

/-- `proxy::server_work::on_child` (server_work.hpp lines 104-119),
given the first `event.value_` bytes available from the child handler's
read buffer: `child_open` arms a read; `child_write n` writes the first
`n` bytes of the child's read buffer; `child_close` nulls the child
pointer and then closes the handler. -/
def server_work.on_child (childReadBuf : List Nat) (ev : bas.Event) :
    List WAction :=
  match ev.state with
  | bas.EventState.child_open => [WAction.asyncReadSome]
  | bas.EventState.child_write =>
      [WAction.asyncWrite (childReadBuf.take ev.value)]
  | bas.EventState.child_close =>
      [WAction.clearChildPtr, WAction.closeHandler]
  | _ => []

/-- `proxy::server_work::on_parent` (server_work.hpp lines 100-102):
empty body. -/
def server_work.on_parent : List WAction := []

/-- `proxy::client_work::on_open` (server_work.hpp lines 177-180): post
`child_open` to the parent handler. -/
def client_work.on_open : List WAction :=
  [WAction.postChildEvent ⟨bas.EventState.child_open, 0⟩]

/-- `proxy::client_work::on_read` (server_work.hpp lines 182-185): post
`child_write(bytes_transferred)` to the parent handler. -/
def client_work.on_read (bytes : Nat) : List WAction :=
  [WAction.postChildEvent ⟨bas.EventState.child_write, bytes⟩]

/-- `proxy::client_work::on_write` (server_work.hpp lines 187-190): arm
the next read. -/
def client_work.on_write : List WAction :=
  [WAction.asyncReadSome]

/-- `proxy::client_work::on_close` (server_work.hpp lines 192-223): if
the parent pointer is set, post `child_close` to the parent and then
null the pointer; then the logging switch. -/
def client_work.on_close (parentSet : Bool) (e : Nat) : List WAction :=
  (if parentSet then
    [WAction.postChildEvent ⟨bas.EventState.child_close, 0⟩,
     WAction.clearParentPtr]
   else []) ++ closeLog e

/-- `proxy::client_work::on_parent` (server_work.hpp lines 225-238),
given the parent handler's read buffer: `parent_write n` writes the
first `n` bytes of the parent's read buffer; `parent_close` nulls the
parent pointer and then closes the handler. -/
def client_work.on_parent (parentReadBuf : List Nat) (ev : bas.Event) :
    List WAction :=
  match ev.state with
  | bas.EventState.parent_write =>
      [WAction.asyncWrite (parentReadBuf.take ev.value)]
  | bas.EventState.parent_close =>
      [WAction.clearParentPtr, WAction.closeHandler]
  | _ => []

/-- `proxy::client_work::on_child` (server_work.hpp lines 240-242):
empty body. -/
def client_work.on_child : List WAction := []

end proxy

namespace pairclose

/-!
Closed-loop model of the proxy pair's shutdown protocol.  The two work
objects are `proxy::server_work` (the parent side, holding
`child_handler_`) and `proxy::client_work` (the child side, holding
`parent_handler_`); their `on_close` / `on_parent` / `on_child` bodies
are from src/trunk/examples/proxy/server/server_work.hpp.  The
framework glue (`close()` idempotent, `on_close` delivered once per
session as the last work callback, `post_parent`/`post_child` enqueue a
delivery on the peer's work loop) is modelled from the spec.
-/

/-- Joint state of one proxy pair during shutdown.  `evPC` counts
`parent_close` events posted to the child and not yet delivered, `evCP`
the pending `child_close` events; `pCloseReq`/`cCloseReq` mean `close()`
has been initiated and `on_close` is pending; `pCloseRuns`/`cCloseRuns`
count how many times each side's `on_close` has run. -/
structure CState where
  pPtr : Bool
  cPtr : Bool
  pCloseReq : Bool
  cCloseReq : Bool
  pCloseRuns : Nat
  cCloseRuns : Nat
  evPC : Nat
  evCP : Nat
deriving DecidableEq, Repr

/-- Both handlers open and wired to each other, nothing closing. -/
def init : CState :=
  { pPtr := true, cPtr := true, pCloseReq := false, cCloseReq := false,
    pCloseRuns := 0, cCloseRuns := 0, evPC := 0, evCP := 0 }

/-- One scheduler step of the shutdown protocol. -/
inductive Step : CState → CState → Prop where
  /-- An external cause (I/O error, eof, timeout, application close)
  initiates close on the parent; `close()` is a no-op once closing or
  closed. -/
  | pCloseExt (s : CState) (h1 : s.pCloseRuns = 0) (h2 : s.pCloseReq = false) :
      Step s { s with pCloseReq := true }
  /-- An external cause initiates close on the child. -/
  | cCloseExt (s : CState) (h1 : s.cCloseRuns = 0) (h2 : s.cCloseReq = false) :
      Step s { s with cCloseReq := true }
  /-- `server_work::on_close` runs on the parent (server_work.hpp lines
  67-74): if `child_handler_` is set, post `parent_close` to the child
  and null the pointer. -/
  | pOnClose (s : CState) (h : s.pCloseReq = true) :
      Step s { s with pCloseReq := false, pCloseRuns := s.pCloseRuns + 1,
                      pPtr := false,
                      evPC := s.evPC + (if s.pPtr then 1 else 0) }
  /-- `client_work::on_close` runs on the child (server_work.hpp lines
  192-199): if `parent_handler_` is set, post `child_close` to the
  parent and null the pointer. -/
  | cOnClose (s : CState) (h : s.cCloseReq = true) :
      Step s { s with cCloseReq := false, cCloseRuns := s.cCloseRuns + 1,
                      cPtr := false,
                      evCP := s.evCP + (if s.cPtr then 1 else 0) }
  /-- The child's work loop delivers a pending `parent_close`
  (`client_work::on_parent`, server_work.hpp lines 233-235): null
  `parent_handler_`, then `close()` (a no-op if already closing or
  closed). -/
  | deliverPC (s : CState) (h : 1 ≤ s.evPC) :
      Step s { s with evPC := s.evPC - 1, cPtr := false,
                      cCloseReq := s.cCloseReq || decide (s.cCloseRuns = 0) }
  /-- The parent's work loop delivers a pending `child_close`
  (`server_work::on_child`, server_work.hpp lines 114-116): null
  `child_handler_`, then `close()`. -/
  | deliverCP (s : CState) (h : 1 ≤ s.evCP) :
      Step s { s with evCP := s.evCP - 1, pPtr := false,
                      pCloseReq := s.pCloseReq || decide (s.pCloseRuns = 0) }

/-- Reachability from the fully-wired initial state. -/
def Reach (s : CState) : Prop := Relation.ReflTransGen Step init s

/-- No pending close event and no pending `on_close` on either side. -/
def quiet (s : CState) : Prop :=
  s.evPC = 0 ∧ s.evCP = 0 ∧ s.pCloseReq = false ∧ s.cCloseReq = false

/-- The inductive invariant of the shutdown protocol. -/
def Inv (s : CState) : Prop :=
  (s.pCloseReq = true → s.pCloseRuns = 0) ∧
  (s.cCloseReq = true → s.cCloseRuns = 0) ∧
  s.pCloseRuns ≤ 1 ∧
  s.cCloseRuns ≤ 1 ∧
  (s.pPtr = false → 1 ≤ s.pCloseRuns ∨ 1 ≤ s.cCloseRuns) ∧
  (s.cPtr = false → 1 ≤ s.cCloseRuns ∨ 1 ≤ s.pCloseRuns) ∧
  (1 ≤ s.evPC → s.pCloseRuns = 1) ∧
  (1 ≤ s.evCP → s.cCloseRuns = 1) ∧
  (s.pCloseRuns = 1 → s.cCloseRuns = 0 → 1 ≤ s.evPC ∨ s.cCloseReq = true) ∧
  (s.cCloseRuns = 1 → s.pCloseRuns = 0 → 1 ≤ s.evCP ∨ s.pCloseReq = true)

theorem pc_inv_init : Inv init := by
  simp [Inv, init]

theorem pc_inv_step {s t : CState} (hs : Inv s) (h : Step s t) : Inv t := by
  obtain ⟨a1, a2, a3, a4, a5, a6, a7, a8, a9, a10⟩ := hs
  cases h with
  | pCloseExt h1 h2 =>
      exact ⟨fun _ => h1, a2, a3, a4, a5, a6, a7, a8, a9,
        fun _ _ => Or.inr rfl⟩
  | cCloseExt h1 h2 =>
      exact ⟨a1, fun _ => h1, a3, a4, a5, a6, a7, a8,
        fun _ _ => Or.inr rfl, a10⟩
  | pOnClose h =>
      have hruns : s.pCloseRuns = 0 := a1 h
      refine ⟨fun hx => absurd (show (false : Bool) = true from hx) (by decide), a2, ?_, a4,
        fun _ => Or.inl (by show 1 ≤ s.pCloseRuns + 1; omega),
        fun _ => Or.inr (by show 1 ≤ s.pCloseRuns + 1; omega),
        fun _ => by show s.pCloseRuns + 1 = 1; omega, a8, ?_, ?_⟩
      · show s.pCloseRuns + 1 ≤ 1
        omega
      · intro _ hc
        have hc' : s.cCloseRuns = 0 := hc
        by_cases hp : s.pPtr = true
        · refine Or.inl ?_
          show 1 ≤ s.evPC + (if s.pPtr then 1 else 0)
          simp [hp]
        · have hpf : s.pPtr = false := by
            cases hb : s.pPtr
            · rfl
            · exact absurd hb hp
          rcases a5 hpf with h' | h' <;> omega
      · intro _ hp
        exact absurd (show s.pCloseRuns + 1 = 0 from hp) (by omega)
  | cOnClose h =>
      have hruns : s.cCloseRuns = 0 := a2 h
      refine ⟨a1, fun hx => absurd (show (false : Bool) = true from hx) (by decide), a3, ?_,
        fun _ => Or.inr (by show 1 ≤ s.cCloseRuns + 1; omega),
        fun _ => Or.inl (by show 1 ≤ s.cCloseRuns + 1; omega),
        a7, fun _ => by show s.cCloseRuns + 1 = 1; omega, ?_, ?_⟩
      · show s.cCloseRuns + 1 ≤ 1
        omega
      · intro hp hc
        exact absurd (show s.cCloseRuns + 1 = 0 from hc) (by omega)
      · intro _ hp
        have hp' : s.pCloseRuns = 0 := hp
        by_cases hc : s.cPtr = true
        · refine Or.inl ?_
          show 1 ≤ s.evCP + (if s.cPtr then 1 else 0)
          simp [hc]
        · have hcf : s.cPtr = false := by
            cases hb : s.cPtr
            · rfl
            · exact absurd hb hc
          rcases a6 hcf with h' | h' <;> omega
  | deliverPC h =>
      have hpruns : s.pCloseRuns = 1 := a7 h
      refine ⟨a1, ?_, a3, a4,
        fun _ => Or.inl (by show 1 ≤ s.pCloseRuns; omega),
        fun _ => Or.inr (by show 1 ≤ s.pCloseRuns; omega),
        fun _ => hpruns, a8, ?_, ?_⟩
      · intro hx
        have hx' : (s.cCloseReq || decide (s.cCloseRuns = 0)) = true := hx
        rcases Bool.or_eq_true_iff.mp hx' with hx'' | hx''
        · exact a2 hx''
        · exact of_decide_eq_true hx''
      · intro _ hc
        have hc' : s.cCloseRuns = 0 := hc
        refine Or.inr ?_
        show (s.cCloseReq || decide (s.cCloseRuns = 0)) = true
        simp [hc']
      · intro _ hp
        exact absurd (show s.pCloseRuns = 0 from hp) (by omega)
  | deliverCP h =>
      have hcruns : s.cCloseRuns = 1 := a8 h
      refine ⟨?_, a2, a3, a4,
        fun _ => Or.inr (by show 1 ≤ s.cCloseRuns; omega),
        fun _ => Or.inl (by show 1 ≤ s.cCloseRuns; omega),
        a7, fun _ => hcruns, ?_, ?_⟩
      · intro hx
        have hx' : (s.pCloseReq || decide (s.pCloseRuns = 0)) = true := hx
        rcases Bool.or_eq_true_iff.mp hx' with hx'' | hx''
        · exact a1 hx''
        · exact of_decide_eq_true hx''
      · intro _ hc
        exact absurd (show s.cCloseRuns = 0 from hc) (by omega)
      · intro _ hp
        have hp' : s.pCloseRuns = 0 := hp
        refine Or.inr ?_
        show (s.pCloseReq || decide (s.pCloseRuns = 0)) = true
        simp [hp']

theorem pc_inv_reach {s : CState} (h : Reach s) : Inv s := by
  induction h with
  | refl => exact pc_inv_init
  | tail _ hstep ih => exact pc_inv_step ih hstep

end pairclose

namespace flow

/-!
Data-plane model of one proxy pair in steady state (closes ignored).
The callback bodies are from
src/trunk/examples/proxy/server/server_work.hpp: the parent
(`server_work`) arms a read only in `on_child(child_open)` and in
`on_write`; its `on_read` posts `parent_write` to the child; the child
(`client_work`) arms a read only in `on_write`; its `on_read` posts
`child_write` to the parent; each `parent_write`/`child_write` delivery
arms a write on the receiving side from the poster's read buffer.  The
framework glue (events delivered on the peer's work loop, one
outstanding read/write per handler) is modelled from the spec.
-/

/-- Counters of one proxy pair's data-plane history: `p` prefixes the
parent (server_work) side, `c` the child (client_work) side; `Armed`
counts operations started, `Done` completions delivered to the work
object; `pwQ`/`cwQ` count posted but undelivered `parent_write` /
`child_write` events; `openQ`/`pOpen` track the single `child_open`
event. -/
structure FState where
  openQ : Bool
  pOpen : Bool
  pReadsArmed : Nat
  pReadsDone : Nat
  pWritesArmed : Nat
  pWritesDone : Nat
  cReadsArmed : Nat
  cReadsDone : Nat
  cWritesArmed : Nat
  cWritesDone : Nat
  pwQ : Nat
  cwQ : Nat
deriving DecidableEq, Repr

/-- Session start: the child's `on_open` has posted `child_open` to the
parent; no I/O yet. -/
def init : FState :=
  { openQ := true, pOpen := false,
    pReadsArmed := 0, pReadsDone := 0, pWritesArmed := 0, pWritesDone := 0,
    cReadsArmed := 0, cReadsDone := 0, cWritesArmed := 0, cWritesDone := 0,
    pwQ := 0, cwQ := 0 }

/-- One scheduler step of the data plane. -/
inductive Step : FState → FState → Prop where
  /-- `server_work::on_child(child_open)` (lines 108-110): the parent
  arms its first read. -/
  | deliverOpen (s : FState) (h : s.openQ = true) :
      Step s { s with openQ := false, pOpen := true,
                      pReadsArmed := s.pReadsArmed + 1 }
  /-- A parent read completes; `server_work::on_read` (lines 57-60)
  posts `parent_write` to the child and arms nothing. -/
  | pReadDone (s : FState) (h : s.pReadsDone < s.pReadsArmed) :
      Step s { s with pReadsDone := s.pReadsDone + 1, pwQ := s.pwQ + 1 }
  /-- `client_work::on_parent(parent_write)` (lines 229-231): the child
  arms a write from the parent's read buffer. -/
  | deliverPW (s : FState) (h : 1 ≤ s.pwQ) :
      Step s { s with pwQ := s.pwQ - 1,
                      cWritesArmed := s.cWritesArmed + 1 }
  /-- A child write completes; `client_work::on_write` (lines 187-190)
  arms the child's next read. -/
  | cWriteDone (s : FState) (h : s.cWritesDone < s.cWritesArmed) :
      Step s { s with cWritesDone := s.cWritesDone + 1,
                      cReadsArmed := s.cReadsArmed + 1 }
  /-- A child read completes; `client_work::on_read` (lines 182-185)
  posts `child_write` to the parent and arms nothing. -/
  | cReadDone (s : FState) (h : s.cReadsDone < s.cReadsArmed) :
      Step s { s with cReadsDone := s.cReadsDone + 1, cwQ := s.cwQ + 1 }
  /-- `server_work::on_child(child_write)` (lines 111-113): the parent
  arms a write from the child's read buffer. -/
  | deliverCW (s : FState) (h : 1 ≤ s.cwQ) :
      Step s { s with cwQ := s.cwQ - 1,
                      pWritesArmed := s.pWritesArmed + 1 }
  /-- A parent write completes; `server_work::on_write` (lines 62-65)
  arms the parent's next read — the only place after `child_open` where
  a parent read is armed. -/
  | pWriteDone (s : FState) (h : s.pWritesDone < s.pWritesArmed) :
      Step s { s with pWritesDone := s.pWritesDone + 1,
                      pReadsArmed := s.pReadsArmed + 1 }

/-- Reachability from session start. -/
def Reach (s : FState) : Prop := Relation.ReflTransGen Step init s

/-- Inductive invariant chaining the parent's reads back to the child's
completed writes. -/
def Inv (s : FState) : Prop :=
  (s.openQ = true → s.pOpen = false) ∧
  s.pReadsArmed ≤ (if s.pOpen then 1 else 0) + s.pWritesDone ∧
  s.pWritesDone ≤ s.pWritesArmed ∧
  s.pWritesArmed + s.cwQ ≤ s.cReadsDone ∧
  s.cReadsDone ≤ s.cReadsArmed ∧
  s.cReadsArmed ≤ s.cWritesDone

theorem fl_inv_init : Inv init := by
  simp [Inv, init]

theorem fl_inv_step {s t : FState} (hs : Inv s) (h : Step s t) : Inv t := by
  obtain ⟨i0, i1, i2, i3, i4, i5⟩ := hs
  cases h with
  | deliverOpen h =>
      have hno : s.pOpen = false := i0 h
      refine ⟨fun hx => absurd (show (false : Bool) = true from hx) (by decide),
        ?_, i2, i3, i4, i5⟩
      show s.pReadsArmed + 1 ≤ (if true then 1 else 0) + s.pWritesDone
      rw [hno] at i1
      simp at i1 ⊢
      omega
  | pReadDone h =>
      exact ⟨i0, i1, i2, i3, i4, i5⟩
  | deliverPW h =>
      exact ⟨i0, i1, i2, i3, i4, i5⟩
  | cWriteDone h =>
      refine ⟨i0, i1, i2, i3, ?_, ?_⟩
      · show s.cReadsDone ≤ s.cReadsArmed + 1
        omega
      · show s.cReadsArmed + 1 ≤ s.cWritesDone + 1
        omega
  | cReadDone h =>
      refine ⟨i0, i1, i2, ?_, ?_, i5⟩
      · show s.pWritesArmed + (s.cwQ + 1) ≤ s.cReadsDone + 1
        omega
      · show s.cReadsDone + 1 ≤ s.cReadsArmed
        omega
  | deliverCW h =>
      refine ⟨i0, i1, ?_, ?_, i4, i5⟩
      · show s.pWritesDone ≤ s.pWritesArmed + 1
        omega
      · show (s.pWritesArmed + 1) + (s.cwQ - 1) ≤ s.cReadsDone
        omega
  | pWriteDone h =>
      refine ⟨i0, ?_, ?_, i3, i4, i5⟩
      · show s.pReadsArmed + 1 ≤ (if s.pOpen then 1 else 0) + (s.pWritesDone + 1)
        omega
      · show s.pWritesDone + 1 ≤ s.pWritesArmed
        omega

theorem fl_inv_reach {s : FState} (h : Reach s) : Inv s := by
  induction h with
  | refl => exact fl_inv_init
  | tail _ hstep ih => exact fl_inv_step ih hstep

end flow

namespace pqueue

/-!
FIFO work-loop model of the parent (server_work) side of a proxy pair,
including shutdown, to examine the null-guard of
`server_work::on_read` (server_work.hpp lines 57-60, which dereferences
`child_handler_` without a check).  Deliveries on the parent's work
loop are FIFO (spec §5); `close()` posts `on_close` at the back of the
queue and `on_close` is the last work callback delivered (spec §4.3);
a successful read completion enqueues `on_read` (spec §4.3); the child
side and the I/O completions are the environment.
-/

/-- An entry of the parent's work-loop queue. -/
inductive PEv where
  | childOpen
  | childWrite
  | childClose
  | readDone
  | writeDone
  | closeEv
deriving DecidableEq, Repr

/-- Parent-side state: `wired` — `on_set_child` has installed the child;
`ptr` — `child_handler_` is non-null; `queue` — the FIFO work-loop
queue; `readOut`/`writeOut` — an async read/write is outstanding;
`closed` — `close()` has been initiated; `onCloseRan` — `on_close` has
run (no work callback is delivered after it); `ccSent` — the child has
already posted its `child_close`; `ccDelivered` — the parent has
processed it; `reads` — a log with one entry per execution of
`server_work::on_read`, recording (`child_handler_` non-null at that
moment, a `child_close` had already been delivered). -/
structure QState where
  wired : Bool
  ptr : Bool
  queue : List PEv
  readOut : Bool
  writeOut : Bool
  closed : Bool
  onCloseRan : Bool
  ccSent : Bool
  ccDelivered : Bool
  reads : List (Bool × Bool)
deriving DecidableEq, Repr

/-- A freshly accepted parent handler: nothing wired, empty queue. -/
def init : QState :=
  { wired := false, ptr := false, queue := [], readOut := false,
    writeOut := false, closed := false, onCloseRan := false,
    ccSent := false, ccDelivered := false, reads := [] }

/-- One step of the parent's work loop or its environment. -/
inductive Step : QState → QState → Prop where
  /-- The outbound connect succeeds: the client wires the pair —
  `on_set_child` installs a non-null child (server_work.hpp lines
  43-46) — and the child's `on_open` posts `child_open` (lines
  177-180). -/
  | wire (s : QState) (h : s.wired = false) :
      Step s { s with wired := true, ptr := true,
                      queue := s.queue ++ [PEv.childOpen] }
  /-- The child's `on_read` posts `child_write` (lines 182-185). -/
  | sendCW (s : QState) (h1 : s.wired = true) (h2 : s.ccSent = false) :
      Step s { s with queue := s.queue ++ [PEv.childWrite] }
  /-- The child's `on_close` posts `child_close` (lines 192-199); at
  most once per session. -/
  | sendCC (s : QState) (h1 : s.wired = true) (h2 : s.ccSent = false) :
      Step s { s with ccSent := true,
                      queue := s.queue ++ [PEv.childClose] }
  /-- An outstanding parent read completes successfully: the framework
  posts `on_read` to the work loop. -/
  | readComplete (s : QState) (h : s.readOut = true) :
      Step s { s with readOut := false,
                      queue := s.queue ++ [PEv.readDone] }
  /-- An outstanding parent write completes: the framework posts
  `on_write`. -/
  | writeComplete (s : QState) (h : s.writeOut = true) :
      Step s { s with writeOut := false,
                      queue := s.queue ++ [PEv.writeDone] }
  /-- The parent closes for a reason of its own (I/O error, eof,
  timeout): `close()` posts `on_close`. -/
  | selfClose (s : QState) (h : s.closed = false) :
      Step s { s with closed := true,
                      queue := s.queue ++ [PEv.closeEv] }
  /-- Deliver `child_open` (`on_child`, lines 108-110): arm the first
  read. -/
  | dOpen (s : QState) (rest : List PEv) (hq : s.queue = PEv.childOpen :: rest)
      (hr : s.onCloseRan = false) :
      Step s { s with queue := rest, readOut := true }
  /-- Deliver `child_write` (`on_child`, lines 111-113): arm a write. -/
  | dCW (s : QState) (rest : List PEv) (hq : s.queue = PEv.childWrite :: rest)
      (hr : s.onCloseRan = false) :
      Step s { s with queue := rest, writeOut := true }
  /-- Deliver `child_close` (`on_child`, lines 114-116): null
  `child_handler_`, then `close()` — which posts `on_close` unless
  already closing. -/
  | dCC (s : QState) (rest : List PEv) (hq : s.queue = PEv.childClose :: rest)
      (hr : s.onCloseRan = false) :
      Step s { s with queue := if s.closed then rest else rest ++ [PEv.closeEv],
                      ptr := false, ccDelivered := true, closed := true }
  /-- Deliver `on_read` (lines 57-60): `child_handler_->post_parent(...)`
  — the dereference this machine observes; log the pointer state. -/
  | dRead (s : QState) (rest : List PEv) (hq : s.queue = PEv.readDone :: rest)
      (hr : s.onCloseRan = false) :
      Step s { s with queue := rest,
                      reads := s.reads ++ [(s.ptr, s.ccDelivered)] }
  /-- Deliver `on_write` (lines 62-65): arm the next read. -/
  | dWrite (s : QState) (rest : List PEv) (hq : s.queue = PEv.writeDone :: rest)
      (hr : s.onCloseRan = false) :
      Step s { s with queue := rest, readOut := true }
  /-- Deliver `on_close` (lines 67-98): post `parent_close` to the child
  if wired, null `child_handler_`; the last work callback of the
  session. -/
  | dClose (s : QState) (rest : List PEv) (hq : s.queue = PEv.closeEv :: rest)
      (hr : s.onCloseRan = false) :
      Step s { s with queue := rest, ptr := false, onCloseRan := true }

/-- Reachability from the fresh handler. -/
def Reach (s : QState) : Prop := Relation.ReflTransGen Step init s

/-- The inductive invariant: before any `child_close` delivery (and
before `on_close`), the pointer tracks wiring; read activity implies
wiring; and every logged `on_read` execution that predates the
`child_close` delivery saw a non-null pointer. -/
def Inv (s : QState) : Prop :=
  (∀ e ∈ s.reads, e.2 = false → e.1 = true) ∧
  (s.ccDelivered = false → s.onCloseRan = false → s.ptr = s.wired) ∧
  (s.wired = false →
    s.readOut = false ∧ s.writeOut = false ∧
    PEv.readDone ∉ s.queue ∧ PEv.childOpen ∉ s.queue ∧
    PEv.writeDone ∉ s.queue ∧ PEv.childWrite ∉ s.queue)

theorem pq_inv_init : Inv init := by
  simp [Inv, init]

theorem pq_inv_step {s t : QState} (hs : Inv s) (h : Step s t) : Inv t := by
  obtain ⟨j1, j2, j3⟩ := hs
  cases h with
  | wire h =>
      refine ⟨j1, fun _ _ => rfl, ?_⟩
      intro hw
      exact absurd (show (true : Bool) = false from hw) (by decide)
  | sendCW h1 h2 =>
      refine ⟨j1, j2, ?_⟩
      intro hw
      rw [hw] at h1
      exact absurd h1 (by decide)
  | sendCC h1 h2 =>
      refine ⟨j1, j2, ?_⟩
      intro hw
      rw [hw] at h1
      exact absurd h1 (by decide)
  | readComplete h =>
      refine ⟨j1, j2, ?_⟩
      intro hw
      exact absurd ((j3 hw).1 ▸ h) (by simp)
  | writeComplete h =>
      refine ⟨j1, j2, ?_⟩
      intro hw
      exact absurd ((j3 hw).2.1 ▸ h) (by simp)
  | selfClose h =>
      refine ⟨j1, j2, ?_⟩
      intro hw
      obtain ⟨k1, k2, k3, k4, k5, k6⟩ := j3 hw
      refine ⟨k1, k2, ?_, ?_, ?_, ?_⟩ <;>
        simp [List.mem_append, k3, k4, k5, k6]
  | dOpen rest hq hr =>
      refine ⟨j1, j2, ?_⟩
      intro hw
      obtain ⟨k1, k2, k3, k4, k5, k6⟩ := j3 hw
      rw [hq] at k4
      exact absurd (List.mem_cons_self PEv.childOpen rest) k4
  | dCW rest hq hr =>
      refine ⟨j1, j2, ?_⟩
      intro hw
      obtain ⟨k1, k2, k3, k4, k5, k6⟩ := j3 hw
      rw [hq] at k6
      exact absurd (List.mem_cons_self PEv.childWrite rest) k6
  | dCC rest hq hr =>
      refine ⟨j1, fun hcc _ => absurd (show (true : Bool) = false from hcc) (by decide), ?_⟩
      intro hw
      obtain ⟨k1, k2, k3, k4, k5, k6⟩ := j3 hw
      rw [hq] at k3 k4 k5 k6
      simp only [List.mem_cons, not_or] at k3 k4 k5 k6
      refine ⟨k1, k2, ?_, ?_, ?_, ?_⟩ <;>
        by_cases hcl : s.closed <;>
          simp [hcl, List.mem_append, k3.2, k4.2, k5.2, k6.2]
  | dRead rest hq hr =>
      refine ⟨?_, j2, ?_⟩
      · intro e he hfst
        rcases List.mem_append.mp he with he' | he'
        · exact j1 e he' hfst
        · have he2 : e = (s.ptr, s.ccDelivered) := by simpa using he'
          subst he2
          have hcc : s.ccDelivered = false := hfst
          have hptr : s.ptr = s.wired := j2 hcc hr
          have hwired : s.wired = true := by
            by_contra hwf
            have hwf' : s.wired = false := by
              cases hb : s.wired
              · rfl
              · exact absurd hb hwf
            have := (j3 hwf').2.2.1
            rw [hq] at this
            exact this (List.mem_cons_self _ _)
          rw [hptr, hwired]
      · intro hw
        obtain ⟨k1, k2, k3, k4, k5, k6⟩ := j3 hw
        rw [hq] at k3
        exact absurd (List.mem_cons_self PEv.readDone rest) k3
  | dWrite rest hq hr =>
      refine ⟨j1, j2, ?_⟩
      intro hw
      obtain ⟨k1, k2, k3, k4, k5, k6⟩ := j3 hw
      rw [hq] at k5
      exact absurd (List.mem_cons_self PEv.writeDone rest) k5
  | dClose rest hq hr =>
      refine ⟨j1, fun _ hoc => absurd (show (true : Bool) = false from hoc) (by decide), ?_⟩
      intro hw
      obtain ⟨k1, k2, k3, k4, k5, k6⟩ := j3 hw
      rw [hq] at k3 k4 k5 k6
      simp only [List.mem_cons, not_or] at k3 k4 k5 k6
      exact ⟨k1, k2, k3.2, k4.2, k5.2, k6.2⟩

theorem pq_inv_reach {s : QState} (h : Reach s) : Inv s := by
  induction h with
  | refl => exact pq_inv_init
  | tail _ hstep ih => exact pq_inv_step ih hstep

end pqueue

section helpers

/-- Boolean check of the claim-side trace shape of the server's start
phase: `n` per-acceptor blocks — open, set reuse-address, bind, listen,
arm one accept, all on acceptor `i` — followed by starting the work
pool and then the I/O pool. -/
def goodOpenTrace : Nat → Nat → List bas.SrvAction → Bool
  | Nat.zero, _, acts =>
      acts == [bas.SrvAction.startWorkPool, bas.SrvAction.startIoPool]
  | Nat.succ n, i,
      bas.SrvAction.openAcceptor j1 :: bas.SrvAction.setReuseAddress j2 ::
      bas.SrvAction.bindAcceptor j3 :: bas.SrvAction.listenAcceptor j4 ::
      bas.SrvAction.armAccept j5 _ :: rest =>
      (j1 == i) && (j2 == i) && (j3 == i) && (j4 == i) && (j5 == i) &&
        goodOpenTrace n (i + 1) rest
  | Nat.succ _, _, _ => false

/-- Whether a server action arms an asynchronous accept. -/
def isArmAccept : bas.SrvAction → Bool
  | bas.SrvAction.armAccept _ _ => true
  | _ => false

theorem mkAcceptors_spec (k : Nat) (p : bas.io_service_pool) :
    bas.mkAcceptors k p =
      ((List.range' p.cursor k).map (fun x => x % p.size),
       { p with cursor := p.cursor + k }) := by
  induction k generalizing p with
  | zero => simp [bas.mkAcceptors]
  | succ n ih =>
      simp only [bas.mkAcceptors, bas.io_service_pool.get_io_service, ih,
        List.range'_succ, List.map_cons]
      refine Prod.ext rfl ?_
      show ({ p with cursor := p.cursor + 1 + n } : bas.io_service_pool) = _
      have : p.cursor + 1 + n = p.cursor + (n + 1) := by omega
      rw [this]

theorem openLoop_goodTrace (accs : List Nat) (i : Nat) (s : bas.ServerState) :
    goodOpenTrace accs.length i
      ((bas.server.openLoop i accs s).2 ++
        [bas.SrvAction.startWorkPool, bas.SrvAction.startIoPool]) = true := by
  induction accs generalizing i s with
  | nil => simp [bas.server.openLoop, goodOpenTrace]
  | cons a rest ih =>
      simp [bas.server.openLoop, bas.server.openOne, bas.server.accept_one,
        goodOpenTrace, ih]

theorem drainLoop_free (cycle : bas.PoolsPending → bas.PoolsPending)
    (fuel : Nat) (p q : bas.PoolsPending)
    (h : bas.server.drainLoop cycle fuel p = some q) :
    bas.poolsFree q = true := by
  induction fuel generalizing p with
  | zero =>
      cases hb : bas.poolsFree p with
      | true =>
          simp [bas.server.drainLoop, hb] at h
          rw [← h]
          exact hb
      | false =>
          simp [bas.server.drainLoop, hb] at h
  | succ n ih =>
      cases hb : bas.poolsFree p with
      | true =>
          simp [bas.server.drainLoop, hb] at h
          rw [← h]
          exact hb
      | false =>
          rw [bas.server.drainLoop, if_neg (by simp [hb])] at h
          exact ih _ h

end helpers

def cexServer : bas.ServerState := bas.server.mk0 1 1 2 50

def cexHandler : bas.HandlerRef := { hid := 0, ioLoop := 0, workLoop := 0 }

/-- C1 counterexample: at the concrete input where an accept completes
with error code 2 on acceptor 0, `server::handle_accept` produces no
`armAccept` action and leaves the server state unchanged — the accept
is not re-armed on that acceptor, contrary to the claim. -/
theorem accept_error_no_rearm_cex :
    (bas.server.handle_accept (some 2) cexHandler 0 cexServer).2.any
      isArmAccept = false ∧
    (bas.server.handle_accept (some 2) cexHandler 0 cexServer).1 =
      cexServer := by
  exact ⟨rfl, rfl⟩

/-- C1 (amended): when an asynchronous accept completes with an error,
`server::handle_accept` closes the offending handler with that error
and does nothing else — in particular it does not re-arm the accept on
that acceptor (the server state is unchanged and no `armAccept` action
is emitted); the accept is re-armed only on a successful completion. -/
theorem accept_error_closes_without_rearm (err : Nat) (h : bas.HandlerRef)
    (a : Nat) (s : bas.ServerState) :
    bas.server.handle_accept (some err) h a s =
      (s, [bas.SrvAction.closeHandler h err]) ∧
    ∃ h2 : bas.HandlerRef,
      (bas.server.handle_accept none h a s).2 =
        [bas.SrvAction.startHandler h, bas.SrvAction.armAccept a h2] := by
  exact ⟨rfl, ⟨_, rfl⟩⟩

/-- C3 counterexample: at the concrete input (peer pointer set, error
code 3), in both `server_work::on_close` and `client_work::on_close`
the pointer clear does NOT come before the close-event post — the post
is at index 0 and the clear at index 1. -/
theorem close_clears_pointer_after_post_cex :
    ¬((proxy.server_work.on_close true 3).indexOf proxy.WAction.clearChildPtr <
      (proxy.server_work.on_close true 3).indexOf
        (proxy.WAction.postParentEvent ⟨bas.EventState.parent_close, 0⟩)) ∧
    ¬((proxy.client_work.on_close true 3).indexOf proxy.WAction.clearParentPtr <
      (proxy.client_work.on_close true 3).indexOf
        (proxy.WAction.postChildEvent ⟨bas.EventState.child_close, 0⟩)) := by
  decide

/-- C3 (amended): in both `server_work::on_close` and
`client_work::on_close`, when the peer pointer is set the close-event
is posted to the peer first and the pointer is nulled immediately
after, within the same guarded block and before `on_close` returns; no
close-event is sent when the pointer is already null. -/
theorem close_posts_event_then_clears_pointer (e : Nat) :
    proxy.server_work.on_close true e =
      proxy.WAction.postParentEvent ⟨bas.EventState.parent_close, 0⟩ ::
      proxy.WAction.clearChildPtr :: proxy.closeLog e ∧
    proxy.client_work.on_close true e =
      proxy.WAction.postChildEvent ⟨bas.EventState.child_close, 0⟩ ::
      proxy.WAction.clearParentPtr :: proxy.closeLog e ∧
    proxy.server_work.on_close false e = proxy.closeLog e ∧
    proxy.client_work.on_close false e = proxy.closeLog e := by
  exact ⟨rfl, rfl, rfl, rfl⟩

/-- C5: on every accept cycle, `server::accept_one` checks a handler out
of the pool bound to the next round-robin I/O-pool loop (the cursor
value, which is then advanced) and to the work-pool loop selected with
the handler pool's current in-use count (`get_load`) as the load hint,
increments the in-use count, and arms exactly one asynchronous accept
on that handler for the given acceptor. -/
theorem accept_one_roundrobin_load_hint (a : Nat) (s : bas.ServerState) :
    ∃ h : bas.HandlerRef,
      (bas.server.accept_one a s).2 = [bas.SrvAction.armAccept a h] ∧
      h.ioLoop = s.ioPool.cursor % s.ioPool.size ∧
      h.workLoop =
        (s.workPool.get_io_service s.handlerPool.get_load).1 ∧
      (bas.server.accept_one a s).1.ioPool.cursor = s.ioPool.cursor + 1 ∧
      (bas.server.accept_one a s).1.workPool.cursor =
        s.workPool.cursor + 1 ∧
      (bas.server.accept_one a s).1.handlerPool.in_use =
        s.handlerPool.in_use + 1 := by
  exact ⟨_, rfl, rfl, rfl, rfl, rfl, rfl⟩

/-- C7: `server::run` on an already-started server returns immediately
with the state unchanged and no action performed, and `server::stop`
on a not-started server returns immediately with the state unchanged
and no action performed. -/
theorem run_stop_noop_when_wrong_state (force : Bool)
    (aa : bas.PoolsPending) (st cy : bas.PoolsPending → bas.PoolsPending)
    (fuel : Nat) (s t : bas.ServerState)
    (hs : s.started = true) (ht : t.started = false) :
    bas.server.run force aa st cy fuel s = some (s, [], aa) ∧
    bas.server.stop t = (t, []) := by
  constructor
  · simp [bas.server.run, hs]
  · simp [bas.server.stop, ht]

/-- C7 witness: a concrete started server and a concrete fresh server. -/
theorem run_stop_noop_when_wrong_state_witness :
    ({ bas.server.mk0 1 1 2 50 with started := true } :
        bas.ServerState).started = true ∧
    (bas.server.mk0 2 1 2 50).started = false ∧
    bas.server.run false ⟨0, 0⟩ id id 0
        { bas.server.mk0 1 1 2 50 with started := true } =
      some ({ bas.server.mk0 1 1 2 50 with started := true }, [], ⟨0, 0⟩) ∧
    bas.server.stop (bas.server.mk0 2 1 2 50) =
      (bas.server.mk0 2 1 2 50, []) := by
  refine ⟨rfl, rfl, ?_, ?_⟩
  · exact (run_stop_noop_when_wrong_state false ⟨0, 0⟩ id id 0
      { bas.server.mk0 1 1 2 50 with started := true }
      (bas.server.mk0 2 1 2 50) rfl rfl).1
  · exact (run_stop_noop_when_wrong_state false ⟨0, 0⟩ id id 0
      { bas.server.mk0 1 1 2 50 with started := true }
      (bas.server.mk0 2 1 2 50) rfl rfl).2

/-- C8: on `parent_write n` the child work object writes exactly the
first `n` bytes of the parent handler's read buffer, and on
`child_write m` the parent work object writes exactly the first `m`
bytes of the child handler's read buffer (byte counts never exceed the
buffer, so `take` yields exactly that many bytes). -/
theorem proxy_write_first_n_bytes (pbuf cbuf : List Nat) (n m : Nat)
    (hn : n ≤ pbuf.length) (hm : m ≤ cbuf.length) :
    (proxy.client_work.on_parent pbuf ⟨bas.EventState.parent_write, n⟩ =
        [proxy.WAction.asyncWrite (pbuf.take n)] ∧
      (pbuf.take n).length = n) ∧
    (proxy.server_work.on_child cbuf ⟨bas.EventState.child_write, m⟩ =
        [proxy.WAction.asyncWrite (cbuf.take m)] ∧
      (cbuf.take m).length = m) := by
  refine ⟨⟨rfl, ?_⟩, ⟨rfl, ?_⟩⟩ <;> simp [List.length_take] <;> omega

/-- C8 witness: concrete buffers and byte counts. -/
theorem proxy_write_first_n_bytes_witness :
    (2 ≤ ([7, 8, 9] : List Nat).length ∧
      1 ≤ ([4, 5] : List Nat).length) ∧
    (proxy.client_work.on_parent [7, 8, 9]
        ⟨bas.EventState.parent_write, 2⟩ =
        [proxy.WAction.asyncWrite [7, 8]] ∧
      proxy.server_work.on_child [4, 5]
        ⟨bas.EventState.child_write, 1⟩ =
        [proxy.WAction.asyncWrite [4]]) := by
  have h := proxy_write_first_n_bytes [7, 8, 9] [4, 5] 2 1
    (by decide) (by decide)
  exact ⟨⟨by decide, by decide⟩, ⟨h.1.1, h.2.1⟩⟩

/-- C2: at any reachable quiescent point of the shutdown protocol (no
pending close event, no pending `on_close`), the two sides of a proxy
pair have run `on_close` the same number of times, and at most once
each — so if either side's `on_close` has run, the other side's has
run exactly once. -/
theorem paired_close_exactly_once (s : pairclose.CState)
    (hr : pairclose.Reach s) (hq : pairclose.quiet s) :
    s.pCloseRuns = s.cCloseRuns ∧ s.pCloseRuns ≤ 1 := by
  obtain ⟨a1, a2, a3, a4, a5, a6, a7, a8, a9, a10⟩ := pairclose.pc_inv_reach hr
  obtain ⟨q1, q2, q3, q4⟩ := hq
  refine ⟨?_, a3⟩
  have hp : s.pCloseRuns = 0 ∨ s.pCloseRuns = 1 := by omega
  have hc : s.cCloseRuns = 0 ∨ s.cCloseRuns = 1 := by omega
  rcases hp with hp | hp <;> rcases hc with hc | hc
  · omega
  · rcases a10 hc hp with h' | h'
    · omega
    · rw [q3] at h'
      exact absurd h' (by decide)
  · rcases a9 hp hc with h' | h'
    · omega
    · rw [q4] at h'
      exact absurd h' (by decide)
  · omega

/-- The quiescent state reached when the parent closes first: its
`on_close` posts `parent_close`; the child delivers it, nulls its
pointer and closes; the child's `on_close` finds the pointer null and
posts nothing back. -/
def pcFinal : pairclose.CState :=
  { pPtr := false, cPtr := false, pCloseReq := false, cCloseReq := false,
    pCloseRuns := 1, cCloseRuns := 1, evPC := 0, evCP := 0 }

theorem pcFinal_reach : pairclose.Reach pcFinal :=
  Relation.ReflTransGen.tail
    (Relation.ReflTransGen.tail
      (Relation.ReflTransGen.tail
        (Relation.ReflTransGen.tail Relation.ReflTransGen.refl
          (pairclose.Step.pCloseExt pairclose.init rfl rfl))
        (pairclose.Step.pOnClose _ rfl))
      (pairclose.Step.deliverPC _ (by decide)))
    (pairclose.Step.cOnClose _ (by decide))

/-- C2 witness: the concrete parent-first shutdown run ends quiescent
with both `on_close` counts equal to one. -/
theorem paired_close_exactly_once_witness :
    (pairclose.Reach pcFinal ∧ pairclose.quiet pcFinal) ∧
    (pcFinal.pCloseRuns = pcFinal.cCloseRuns ∧ pcFinal.pCloseRuns ≤ 1) :=
  ⟨⟨pcFinal_reach, ⟨rfl, rfl, rfl, rfl⟩⟩,
   paired_close_exactly_once pcFinal pcFinal_reach ⟨rfl, rfl, rfl, rfl⟩⟩

/-- C9: in every reachable state of the proxy data plane, if a second
read has ever been armed on the parent then the child has completed at
least one write — and the child's writes all drain the parent's read
buffer — so the parent's next read is issued only after the peer has
finished writing from that buffer. -/
theorem no_second_parent_read_before_child_write_done
    (s : flow.FState) (hr : flow.Reach s)
    (h2 : 2 ≤ s.pReadsArmed) : 1 ≤ s.cWritesDone := by
  obtain ⟨i0, i1, i2, i3, i4, i5⟩ := flow.fl_inv_reach hr
  have hite : (if s.pOpen then 1 else 0) ≤ 1 := by split <;> omega
  have h1' : s.pReadsArmed ≤ 1 + s.pWritesDone :=
    le_trans i1 (Nat.add_le_add_right hite _)
  omega

/-- The state after one full round trip: the parent read once, the
child wrote and read once, the parent wrote once and armed its second
read. -/
def flowFinal : flow.FState :=
  { openQ := false, pOpen := true,
    pReadsArmed := 2, pReadsDone := 1, pWritesArmed := 1, pWritesDone := 1,
    cReadsArmed := 1, cReadsDone := 1, cWritesArmed := 1, cWritesDone := 1,
    pwQ := 0, cwQ := 0 }

theorem flowFinal_reach : flow.Reach flowFinal :=
  Relation.ReflTransGen.tail
    (Relation.ReflTransGen.tail
      (Relation.ReflTransGen.tail
        (Relation.ReflTransGen.tail
          (Relation.ReflTransGen.tail
            (Relation.ReflTransGen.tail
              (Relation.ReflTransGen.tail Relation.ReflTransGen.refl
                (flow.Step.deliverOpen flow.init rfl))
              (flow.Step.pReadDone _ (by decide)))
            (flow.Step.deliverPW _ (by decide)))
          (flow.Step.cWriteDone _ (by decide)))
        (flow.Step.cReadDone _ (by decide)))
      (flow.Step.deliverCW _ (by decide)))
    (flow.Step.pWriteDone _ (by decide))

/-- C9 witness: the concrete round-trip run arms the parent's second
read only after the child's write completed. -/
theorem no_second_parent_read_before_child_write_done_witness :
    (flow.Reach flowFinal ∧ 2 ≤ flowFinal.pReadsArmed) ∧
    1 ≤ flowFinal.cWritesDone :=
  ⟨⟨flowFinal_reach, by decide⟩,
   no_second_parent_read_before_child_write_done flowFinal
     flowFinal_reach (by decide)⟩

/-- The state exhibiting the unguarded dereference: the child's
`child_close` overtakes an already-queued `on_read` on the parent's
FIFO work loop, so `on_read` executes with `child_handler_` null. -/
def qBad : pqueue.QState :=
  { wired := true, ptr := false, queue := [pqueue.PEv.closeEv],
    readOut := false, writeOut := false, closed := true,
    onCloseRan := false, ccSent := true, ccDelivered := true,
    reads := [(false, true)] }

theorem qBad_reach : pqueue.Reach qBad :=
  Relation.ReflTransGen.tail
    (Relation.ReflTransGen.tail
      (Relation.ReflTransGen.tail
        (Relation.ReflTransGen.tail
          (Relation.ReflTransGen.tail
            (Relation.ReflTransGen.tail Relation.ReflTransGen.refl
              (pqueue.Step.wire pqueue.init rfl))
            (pqueue.Step.dOpen _ [] rfl rfl))
          (pqueue.Step.sendCC _ rfl rfl))
        (pqueue.Step.readComplete _ rfl))
      (pqueue.Step.dCC _ [pqueue.PEv.readDone] rfl rfl))
    (pqueue.Step.dRead _ [pqueue.PEv.closeEv] rfl rfl)

/-- C10 counterexample: a reachable execution in which
`server_work::on_read` runs with `child_handler_` null — the recorded
`on_read` log entry has a false pointer flag — refuting the claim that
the pointer is non-null whenever `on_read` executes. -/
theorem on_read_null_child_cex :
    pqueue.Reach qBad ∧ (false, true) ∈ qBad.reads :=
  ⟨qBad_reach, by decide⟩

/-- C10 (amended): whenever `server_work::on_read` executes before any
`child_close` has been delivered to the parent (so while the pair is
still wired in the sense of the claim), `child_handler_` is non-null;
a null dereference is possible only for an `on_read` already queued
when the peer's `child_close` arrives. -/
theorem on_read_child_nonnull_before_child_close
    (s : pqueue.QState) (hr : pqueue.Reach s)
    (e : Bool × Bool) (he : e ∈ s.reads) (hcc : e.2 = false) :
    e.1 = true :=
  (pqueue.pq_inv_reach hr).1 e he hcc

/-- The state of a clean first read: `on_read` executed while wired,
before any `child_close`. -/
def qGood : pqueue.QState :=
  { wired := true, ptr := true, queue := [], readOut := false,
    writeOut := false, closed := false, onCloseRan := false,
    ccSent := false, ccDelivered := false, reads := [(true, false)] }

theorem qGood_reach : pqueue.Reach qGood :=
  Relation.ReflTransGen.tail
    (Relation.ReflTransGen.tail
      (Relation.ReflTransGen.tail
        (Relation.ReflTransGen.tail Relation.ReflTransGen.refl
          (pqueue.Step.wire pqueue.init rfl))
        (pqueue.Step.dOpen _ [] rfl rfl))
      (pqueue.Step.readComplete _ rfl))
    (pqueue.Step.dRead _ [] rfl rfl)

/-- C10 amended-claim witness: the concrete clean first read satisfies
the amended theorem's hypotheses and its log entry shows the non-null
pointer. -/
theorem on_read_child_nonnull_before_child_close_witness :
    (pqueue.Reach qGood ∧ (true, false) ∈ qGood.reads) ∧
    ((true, false) : Bool × Bool).1 = true :=
  ⟨⟨qGood_reach, by decide⟩,
   on_read_child_nonnull_before_child_close qGood qGood_reach
     (true, false) (by decide) rfl⟩

/-- C4: when `server::run` in graceful (default) mode returns — having
stopped both pools after the acceptor pool's blocking run and then
repeatedly restarted and stopped them while either was not free — both
the I/O pool and the work pool report idle. -/
theorem run_graceful_returns_pools_free (aa : bas.PoolsPending)
    (st cy : bas.PoolsPending → bas.PoolsPending) (fuel : Nat)
    (s s' : bas.ServerState) (acts : List bas.SrvAction)
    (p : bas.PoolsPending) (hstart : s.started = false)
    (hrun : bas.server.run false aa st cy fuel s = some (s', acts, p)) :
    bas.poolsFree p = true := by
  simp only [bas.server.run, hstart, Bool.false_eq_true, if_false] at hrun
  split at hrun
  · exact absurd hrun (by simp)
  · rename_i q heq
    simp only [Option.some.injEq, Prod.mk.injEq] at hrun
    rw [← hrun.2.2]
    exact drainLoop_free cy fuel _ q heq

/-- A drain cycle that retires one pending task from each pool per
restart-and-stop round. -/
def drainCyc : bas.PoolsPending → bas.PoolsPending :=
  fun p => ⟨p.ioPending - 1, p.workPending - 1⟩

def c4srv : bas.ServerState := bas.server.mk0 1 1 2 50

def c4out : bas.ServerState × List bas.SrvAction × bas.PoolsPending :=
  (bas.server.run false ⟨1, 1⟩ id drainCyc 2 c4srv).getD
    (c4srv, [], ⟨1, 1⟩)

/-- C4 witness: a concrete graceful run, starting with one pending task
in each pool, returns with both pools free. -/
theorem run_graceful_returns_pools_free_witness :
    (c4srv.started = false ∧
      bas.server.run false ⟨1, 1⟩ id drainCyc 2 c4srv =
        some (c4out.1, c4out.2.1, c4out.2.2)) ∧
    bas.poolsFree c4out.2.2 = true :=
  ⟨⟨rfl, rfl⟩,
   run_graceful_returns_pools_free ⟨1, 1⟩ id drainCyc 2 c4srv
     c4out.1 c4out.2.1 c4out.2.2 rfl rfl⟩

/-- C6: the constructor creates exactly `io_pool_size` acceptors, the
`i`-th bound to acceptor-pool loop `i` (one per loop), and the start
phase of `server::run` opens each acceptor with the reuse-address
option, binds it, listens, and arms one accept on it — all acceptor
blocks in order, before the single `startWorkPool` action and the
`startIoPool` action that end the trace. -/
theorem ctor_acceptors_and_run_open_phase (n w0 wm ld : Nat) :
    (bas.server.mk0 n w0 wm ld).acceptorLoops = List.range n ∧
    (bas.server.mk0 n w0 wm ld).acceptorLoops.length = n ∧
    goodOpenTrace n 0
      ((bas.server.runStartPhase (bas.server.mk0 n w0 wm ld)).2) = true := by
  have hloops : (bas.server.mk0 n w0 wm ld).acceptorLoops = List.range n := by
    show (bas.mkAcceptors n (bas.io_service_pool.mk0 n)).1 = List.range n
    rw [mkAcceptors_spec]
    show (List.range' 0 n).map (fun x => x % n) = List.range n
    rw [← List.range_eq_range']
    have hcongr : (List.range n).map (fun x => x % n) =
        (List.range n).map id :=
      List.map_congr_left
        (fun x hx => Nat.mod_eq_of_lt (List.mem_range.mp hx))
    rw [hcongr, List.map_id]
  refine ⟨hloops, by rw [hloops]; exact List.length_range n, ?_⟩
  have h := openLoop_goodTrace (bas.server.mk0 n w0 wm ld).acceptorLoops 0
    (bas.server.mk0 n w0 wm ld)
  rw [hloops, List.length_range] at h
  show goodOpenTrace n 0
    ((bas.server.openLoop 0 (bas.server.mk0 n w0 wm ld).acceptorLoops
        (bas.server.mk0 n w0 wm ld)).2 ++
      [bas.SrvAction.startWorkPool, bas.SrvAction.startIoPool]) = true
  rw [hloops]
  exact h
